import Mathlib

/-
Verification of the multi-room session kernel shared by the chat,
number-guessing, rock-paper-scissors and snake servers of this repository.

The Go sources are embedded shallowly:
  * maps are association lists in insertion order (Go map iteration order is
    unspecified, so every tick/iteration order is taken as an explicit
    parameter where it matters);
  * each call to the random generator is modelled as reading the next value
    of an explicit input stream;
  * the websocket channel of a member is reduced to an integer identifier
    plus a flag saying whether sends on it currently succeed;
  * the database outcome sink is an event list.
All state-manipulating functions are executable.
-/

namespace Registry

/-- The server's room table.  Every constructed `Room` receives a fresh
instance number, so two lookups denote the same Room object exactly when
the numbers agree; `nextRoom` counts how many Rooms were ever constructed. -/
structure ServerState where
  rooms : List (String × Nat)
  nextRoom : Nat
deriving DecidableEq

/-- Go map read `s.rooms[name]`. -/
def lookupRoom (s : ServerState) (name : String) : Option Nat :=
  (s.rooms.find? (fun kv => kv.1 == name)).map (fun kv => kv.2)

/-- Function `GameServer.getRoom` of `snakegame/main.go` (lines 72-94): under the
server lock, look the room up; when absent construct a fresh Room and insert
it (the tick-driven variant also starts the room loop exactly once here). -/
def getRoom (s : ServerState) (name : String) : Nat × ServerState :=
  match lookupRoom s name with
  | some r => (r, s)
  | none =>
      (s.nextRoom,
       { rooms := s.rooms ++ [(name, s.nextRoom)], nextRoom := s.nextRoom + 1 })

/-- Function `GameServer.getRoom` of `unnamed/part_000` (lines 175-196): optimistic
lookup under the read lock; on a miss, re-check under the write lock before
constructing (double-checked creation). -/
def getRoomDC (s : ServerState) (name : String) : Nat × ServerState :=
  match lookupRoom s name with
  | some r => (r, s)
  | none =>
      match lookupRoom s name with
      | some r => (r, s)
      | none =>
          (s.nextRoom,
           { rooms := s.rooms ++ [(name, s.nextRoom)], nextRoom := s.nextRoom + 1 })

end Registry

namespace RoomMap

/-- Go map write `m[k] = v`: overwrite in place when the key is present,
otherwise append a fresh entry. -/
def mapInsert {α : Type} (m : List (String × α)) (k : String) (v : α) :
    List (String × α) :=
  if m.any (fun kv => kv.1 == k) then
    m.map (fun kv => if kv.1 == k then (k, v) else kv)
  else m ++ [(k, v)]

/-- Go map delete `delete(m, k)`. -/
def mapDelete {α : Type} (m : List (String × α)) (k : String) :
    List (String × α) :=
  m.filter (fun kv => !(kv.1 == k))

/-- The id assigned at join time, `fmt.Sprintf("P%d", len(room.players)+1)`
(`unnamed/part_000` line 207, `snakegame/main.go` line 275). -/
def joinId {α : Type} (m : List (String × α)) : String :=
  "P" ++ toString (m.length + 1)

/-- The join step: assign the id and insert the new player entry. -/
def joinRoom {α : Type} (m : List (String × α)) (v : α) : List (String × α) :=
  mapInsert m (joinId m) v

/-- The leave step of the disconnect cleanup: delete the entry. -/
def leaveRoom {α : Type} (m : List (String × α)) (k : String) :
    List (String × α) :=
  mapDelete m k

end RoomMap

namespace GuessGame

/-- A connected player of the guessing game (`unnamed/part_000` lines 148-151);
the websocket connection is reduced to an integer identifier. -/
structure GPlayer where
  id : String
  conn : Nat
deriving DecidableEq

/-- A guessing-game room (`unnamed/part_000` lines 153-159). -/
structure GRoom where
  name : String
  players : List GPlayer
  secret : Int
deriving DecidableEq

/-- Observable effects of one guess: a private reply on the sender's
connection, a room broadcast, or a row written to the outcome sink. -/
inductive GuessOut where
  | privateMsg (toId : String) (msg : String)
  | broadcastMsg (msg : String)
  | record (pid : String) (result : String)
deriving DecidableEq

/-- Extract the (player, result) pair of an outcome-sink write. -/
def recordOf : GuessOut → Option (String × String)
  | .record p res => some (p, res)
  | _ => none

/-- The guess-evaluation step of `GameServer.handleConnections`
(`unnamed/part_000` lines 238-255), for an already-parsed integer guess.
`r` is the value the random generator returns for `rand.Intn(100)` when a
new secret is drawn. -/
def handleGuess (room : GRoom) (pid : String) (guess : Int) (r : Nat) :
    GRoom × List GuessOut :=
  if guess < room.secret then
    (room, [.privateMsg pid "太小了"])
  else if guess > room.secret then
    (room, [.privateMsg pid "太大了"])
  else
    ({ room with secret := (r : Int) + 1 },
     [.broadcastMsg ("玩家 " ++ pid ++ " 猜对了！答案是 " ++ toString room.secret),
      .record pid "win"]
       ++ (room.players.filter (fun p => p.id != pid)).map
            (fun p => .record p.id "lose")
       ++ [.broadcastMsg "新一轮开始！请继续猜数字"])

end GuessGame

namespace RPS

/-- A rock-paper-scissors player (`snakegame/schema.sql` lines 33-37);
the websocket connection is reduced to an integer identifier. -/
structure RPlayer where
  id : String
  conn : Nat
  move : String
deriving DecidableEq

/-- The winner decision, function `decide` of `snakegame/schema.sql`
(lines 87-98). -/
def rpsDecide (p1 p2 : RPlayer) : String :=
  if p1.move = p2.move then "平局"
  else if (p1.move = "rock" ∧ p2.move = "scissors") ∨
          (p1.move = "scissors" ∧ p2.move = "paper") ∨
          (p1.move = "paper" ∧ p2.move = "rock") then
    "玩家 " ++ p1.id ++ " 赢了！"
  else
    "玩家 " ++ p2.id ++ " 赢了！"

/-- Recording an inbound message as the sender's move
(`snakegame/schema.sql` lines 134-135): the raw text is stored as is. -/
def recordMove (p : RPlayer) (msg : String) : RPlayer :=
  { p with move := msg }

/-- The resolution check after a move is recorded (`snakegame/schema.sql`
lines 138-160): only when the room has exactly two members and both moves are
set, compute the result, broadcast it and clear both moves.  The Go code
guards on `len(room.players) == 2` and picks `p1`, `p2` in map iteration
order; the two-element list pattern models that order explicitly. -/
def resolveStep (players : List RPlayer) : Option (String × List RPlayer) :=
  match players with
  | [p1, p2] =>
      if p1.move ≠ "" ∧ p2.move ≠ "" then
        some (rpsDecide p1 p2, [{ p1 with move := "" }, { p2 with move := "" }])
      else none
  | _ => none

/-- Modelled from the spec: the beats-relation rock>scissors>paper>rock,
used to compare the code's `decide` against the specified relation. -/
def beats (a b : String) : Prop :=
  (a = "rock" ∧ b = "scissors") ∨ (a = "scissors" ∧ b = "paper") ∨
    (a = "paper" ∧ b = "rock")

instance (a b : String) : Decidable (beats a b) := by
  unfold beats
  exact inferInstance

/-- Modelled from the spec: the three legal moves. -/
def validMove (m : String) : Prop :=
  m = "rock" ∨ m = "paper" ∨ m = "scissors"

instance (m : String) : Decidable (validMove m) := by
  unfold validMove
  exact inferInstance

end RPS

namespace Broadcast

/-- A room member as the broadcast loops see it: a connection identifier and
whether `WriteMessage` on that connection currently succeeds. -/
structure Member where
  conn : Nat
  ok : Bool
deriving DecidableEq

/-- What one broadcast produced: the connections that received the message,
the connections whose send failure was logged, and the membership left
behind. -/
structure BroadcastResult where
  delivered : List Nat
  logged : List Nat
  remaining : List Member
deriving DecidableEq

/-- One round of the broadcast loop of the chat variants
(`chatroom/main.go` lines 71-87 and the `Room.start` loop of
`unnamed/part_000` lines 43-58): iterate over all clients; on a send error,
log it, close the connection and delete the client; keep going. -/
def chatBroadcast (members : List Member) : BroadcastResult :=
  members.foldl
    (fun acc m =>
      if m.ok then
        { acc with delivered := acc.delivered ++ [m.conn],
                   remaining := acc.remaining ++ [m] }
      else
        { acc with logged := acc.logged ++ [m.conn] })
    ⟨[], [], []⟩

/-- Function `Room.broadcast` of the rock-paper-scissors variant
(`snakegame/schema.sql` lines 166-174): on a send error, log it and keep
going; the member is not removed. -/
def rpsBroadcast (members : List Member) : BroadcastResult :=
  members.foldl
    (fun acc m =>
      if m.ok then
        { acc with delivered := acc.delivered ++ [m.conn],
                   remaining := acc.remaining ++ [m] }
      else
        { acc with logged := acc.logged ++ [m.conn],
                   remaining := acc.remaining ++ [m] })
    ⟨[], [], []⟩

/-- Function `Room.broadcast` of the number-guessing variant (`unnamed/part_000`
lines 260-266): the return value of `WriteMessage` is discarded — a send
error is neither logged nor acted upon, and the member is kept. -/
def guessBroadcast (members : List Member) : BroadcastResult :=
  members.foldl
    (fun acc m =>
      if m.ok then
        { acc with delivered := acc.delivered ++ [m.conn],
                   remaining := acc.remaining ++ [m] }
      else
        { acc with remaining := acc.remaining ++ [m] })
    ⟨[], [], []⟩

end Broadcast

namespace Chat

/-- The text pushed to the broadcast channel by the multi-room chat session
(`unnamed/part_000` line 116, `fmt.Sprintf("[%s] %s", room.name, msg)`). -/
def roomInbound (roomName msg : String) : String :=
  "[" ++ roomName ++ "] " ++ msg

/-- The text pushed to the broadcast channel by the single-room chat variant
(`chatroom/main.go` line 65, `string(msg)`): the inbound text unchanged. -/
def singleInbound (msg : String) : String :=
  msg

/-- End-to-end delivery of one inbound message in the multi-room chat
variant: each connection the broadcast loop reaches receives the wrapped
text. -/
def roomDeliver (roomName : String) (members : List Broadcast.Member)
    (msg : String) : List (Nat × String) :=
  (Broadcast.chatBroadcast members).delivered.map
    (fun c => (c, roomInbound roomName msg))

/-- End-to-end delivery of one inbound message in the single-room chat
variant: each connection the broadcast loop reaches receives the raw text. -/
def singleDeliver (members : List Broadcast.Member) (msg : String) :
    List (Nat × String) :=
  (Broadcast.chatBroadcast members).delivered.map
    (fun c => (c, singleInbound msg))

end Chat

namespace SnakeGame

/-- Integer grid coordinate (`snakegame/main.go` lines 26-29). -/
structure Point where
  x : Int
  y : Int
deriving DecidableEq

instance : Inhabited Point := ⟨⟨0, 0⟩⟩

/-- One snake (`snakegame/main.go` lines 32-40); the websocket connection is
dropped (it never influences the tick computation). -/
structure Snake where
  id : String
  body : List Point
  dir : String
  score : Nat
  alive : Bool
deriving DecidableEq

/-- Room state threaded through one tick of `Room.update`.  `players` is the
player map in iteration order; `k` indexes the random stream; `scores` lists
the outcome-sink writes.  `ateFood` and `fellBack` are ghost instrumentation
recording whether some snake ate this tick and whether some food redraw
exhausted all its attempts; they influence no computation. -/
structure TickState where
  players : List Snake
  food : Point
  k : Nat
  scores : List (String × Nat)
  ateFood : Bool
  fellBack : Bool
deriving DecidableEq

/-- Candidate next head from the current direction (`Room.update` lines
120-132); the Go switch has no default case, so an unrecognized direction
leaves the head in place. -/
def moveHead (p : Point) (dir : String) : Point :=
  if dir = "up" then ⟨p.x, p.y - 1⟩
  else if dir = "down" then ⟨p.x, p.y + 1⟩
  else if dir = "left" then ⟨p.x - 1, p.y⟩
  else if dir = "right" then ⟨p.x + 1, p.y⟩
  else p

/-- Whether the cell is a segment of any snake's body (the occupancy scan of
`Room.randomEmptyCell`, lines 236-246). -/
def cellOccupied (players : List Snake) (p : Point) : Bool :=
  players.any (fun s => s.body.any (fun b => b == p))

/-- The player-map entry for `sid` (Go map read; first match in iteration
order). -/
def findSnake (players : List Snake) (sid : String) : Option Snake :=
  players.find? (fun s => s.id == sid)

/-- Writing the mutated snake back into the player map: in Go the update loop
mutates the `*Snake` the map points to, so every occurrence under this id
changes. -/
def replaceSnake (players : List Snake) (s : Snake) : List Snake :=
  players.map (fun t => if t.id = s.id then s else t)

/-- The retry loop of `Room.randomEmptyCell` (lines 233-250): each attempt
draws one grid point from the random stream and returns it when unoccupied.
Returns the drawn point, the next stream index, and a ghost flag that is true
exactly when the fuel ran out and the fallback was returned. -/
def randomEmptyCellAux (rnd : Nat → Point) (players : List Snake)
    (fallback : Point) : Nat → Nat → Point × Nat × Bool
  | k, 0 => (fallback, k, true)
  | k, fuel + 1 =>
      if cellOccupied players (rnd k) then
        randomEmptyCellAux rnd players fallback (k + 1) fuel
      else (rnd k, k + 1, false)

/-- Function `Room.randomEmptyCell` (lines 232-252): up to 200 random draws over the
grid, returning the first cell unoccupied at draw time and falling back to
the current food cell when all 200 draws are occupied. -/
def randomEmptyCell (rnd : Nat → Point) (players : List Snake) (food : Point)
    (k : Nat) : Point × Nat × Bool :=
  randomEmptyCellAux rnd players food k 200

/-- Processing one snake inside the loop of `Room.update` (lines 115-196).
Dead or empty snakes are skipped; then the wall, self and opponent checks run
in that order against the *current* `st.players` (which earlier iterations of
the same tick may already have advanced); otherwise the snake advances, and
if the new head equals the food the tail is duplicated, the score increments
and the food is redrawn. -/
def stepSnake (w h : Int) (rnd : Nat → Point) (st : TickState) (sid : String) :
    TickState :=
  match findSnake st.players sid with
  | none => st
  | some snake =>
      if snake.alive = false ∨ snake.body = [] then st
      else
        let next := moveHead snake.body.headI snake.dir
        if next.x < 0 ∨ w ≤ next.x ∨ next.y < 0 ∨ h ≤ next.y then
          { st with players := replaceSnake st.players { snake with alive := false },
                    scores := st.scores ++ [(snake.id, snake.score)] }
        else if next ∈ snake.body then
          { st with players := replaceSnake st.players { snake with alive := false },
                    scores := st.scores ++ [(snake.id, snake.score)] }
        else if ∃ other ∈ st.players, other.id ≠ snake.id ∧ next ∈ other.body then
          { st with players := replaceSnake st.players { snake with alive := false },
                    scores := st.scores ++ [(snake.id, snake.score)] }
        else
          let newBody := next :: snake.body.dropLast
          if next = st.food then
            let tail := newBody.getLastD ⟨0, 0⟩
            let grown := { snake with body := newBody ++ [tail], score := snake.score + 1 }
            let players2 := replaceSnake st.players grown
            let res := randomEmptyCell rnd players2 st.food st.k
            { st with players := players2, food := res.1, k := res.2.1,
                      ateFood := true, fellBack := st.fellBack || res.2.2 }
          else
            { st with players := replaceSnake st.players { snake with body := newBody } }

/-- One tick of `Room.update` (lines 111-196): the per-snake step folded over
the map iteration order.  The state left here is what the end-of-tick
broadcast (lines 199-212) serializes: in particular `(update ...).food` is
the food cell every member is sent. -/
def update (w h : Int) (rnd : Nat → Point) (st : TickState)
    (order : List String) : TickState :=
  order.foldl (stepSnake w h rnd) st

/-- Modelled from the spec claim (C3): the same per-snake step, except that
the snake's own data and all collision checks read the pre-tick player list
`pre` instead of the current one. -/
def stepSnakeSpec (w h : Int) (rnd : Nat → Point) (pre : List Snake)
    (st : TickState) (sid : String) : TickState :=
  match findSnake pre sid with
  | none => st
  | some snake =>
      if snake.alive = false ∨ snake.body = [] then st
      else
        let next := moveHead snake.body.headI snake.dir
        if next.x < 0 ∨ w ≤ next.x ∨ next.y < 0 ∨ h ≤ next.y then
          { st with players := replaceSnake st.players { snake with alive := false },
                    scores := st.scores ++ [(snake.id, snake.score)] }
        else if next ∈ snake.body then
          { st with players := replaceSnake st.players { snake with alive := false },
                    scores := st.scores ++ [(snake.id, snake.score)] }
        else if ∃ other ∈ pre, other.id ≠ snake.id ∧ next ∈ other.body then
          { st with players := replaceSnake st.players { snake with alive := false },
                    scores := st.scores ++ [(snake.id, snake.score)] }
        else
          let newBody := next :: snake.body.dropLast
          if next = st.food then
            let tail := newBody.getLastD ⟨0, 0⟩
            let grown := { snake with body := newBody ++ [tail], score := snake.score + 1 }
            let players2 := replaceSnake st.players grown
            let res := randomEmptyCell rnd players2 st.food st.k
            { st with players := players2, food := res.1, k := res.2.1,
                      ateFood := true, fellBack := st.fellBack || res.2.2 }
          else
            { st with players := replaceSnake st.players { snake with body := newBody } }

/-- One tick under the spec claim's pre-tick reading semantics. -/
def updateSpec (w h : Int) (rnd : Nat → Point) (st : TickState)
    (order : List String) : TickState :=
  order.foldl (fun s sid => stepSnakeSpec w h rnd st.players s sid) st

end SnakeGame

namespace Registry

theorem lookupRoom_insert (s : ServerState) (name : String)
    (h : lookupRoom s name = none) (n : Nat) :
    lookupRoom { rooms := s.rooms ++ [(name, n)], nextRoom := n + 1 } name = some n := by
  unfold lookupRoom at h ⊢
  rw [List.find?_append]
  have hfind : s.rooms.find? (fun kv => kv.1 == name) = none := by
    cases hf : s.rooms.find? (fun kv => kv.1 == name) with
    | none => rfl
    | some kv => rw [hf] at h; simp at h
  rw [hfind]
  simp

end Registry

/-- Claim C1: a second `getOrCreate` call with the same name returns the Room
instance created by the first call and leaves the registry's room mapping
unchanged; exactly one Room instance is ever created per name (the instance
counter advances only when the name was absent).  Both the plainly locked
variant (`getRoom`) and the double-checked variant (`getRoomDC`) agree. -/
theorem getRoom_unique_instance (s : Registry.ServerState) (name : String) :
    Registry.getRoom (Registry.getRoom s name).2 name = Registry.getRoom s name ∧
    (Registry.getRoom s name).2.nextRoom =
      (match Registry.lookupRoom s name with
       | some _ => s.nextRoom
       | none => s.nextRoom + 1) ∧
    Registry.getRoomDC s name = Registry.getRoom s name ∧
    Registry.getRoomDC (Registry.getRoom s name).2 name = Registry.getRoom s name := by
  cases h : Registry.lookupRoom s name with
  | some r =>
      unfold Registry.getRoom Registry.getRoomDC
      rw [h]
      simp only []
      rw [h]
      simp
  | none =>
      have hins := Registry.lookupRoom_insert s name h s.nextRoom
      unfold Registry.getRoom Registry.getRoomDC
      rw [h]
      simp only []
      rw [hins]
      simp

/-- Claim C7 counterexample: in the reachable room state whose only member is
"P2" (obtained from joins of P1, P2 followed by P1 leaving), a new join is
assigned the id "P2" again, overwrites the existing entry, and the subsequent
leave deletes it — membership ends empty instead of being restored. -/
theorem join_leave_not_restoring :
    RoomMap.leaveRoom (RoomMap.joinRoom [(("P2" : String), (0 : Nat))] 7)
        (RoomMap.joinId [(("P2" : String), (0 : Nat))]) ≠
      [(("P2" : String), (0 : Nat))] := by
  decide

/-- Claim C7 as amended: provided the id assigned at join time is not already
a member key (for instance when ids are still contiguous P1..Pn), a join
immediately followed by a leave of that player restores the membership
mapping exactly. -/
theorem join_leave_restores {α : Type} (m : List (String × α)) (v : α)
    (h : ∀ kv ∈ m, kv.1 ≠ RoomMap.joinId m) :
    RoomMap.leaveRoom (RoomMap.joinRoom m v) (RoomMap.joinId m) = m := by
  unfold RoomMap.leaveRoom RoomMap.joinRoom RoomMap.mapInsert RoomMap.mapDelete
  have hany : (m.any (fun kv => kv.1 == RoomMap.joinId m)) = false := by
    rw [List.any_eq_false]
    intro kv hkv
    simpa using h kv hkv
  rw [hany]
  simp only [Bool.false_eq_true, if_false, List.filter_append]
  have hm : m.filter (fun kv => !(kv.1 == RoomMap.joinId m)) = m := by
    rw [List.filter_eq_self]
    intro kv hkv
    simpa using h kv hkv
  rw [hm]
  simp

/-- Witness for the amended claim C7 at the concrete state {P1}. -/
theorem join_leave_restores_witness :
    RoomMap.leaveRoom (RoomMap.joinRoom [(("P1" : String), (0 : Nat))] 5)
        (RoomMap.joinId [(("P1" : String), (0 : Nat))]) =
      [(("P1" : String), (0 : Nat))] :=
  join_leave_restores _ _ (by decide)

theorem guess_filterMap_records (players : List GuessGame.GPlayer) (pid : String) :
    ((players.filter (fun p => p.id != pid)).map
        (fun p => GuessGame.GuessOut.record p.id "lose")).filterMap
      GuessGame.recordOf =
    (players.filter (fun p => p.id != pid)).map (fun p => (p.id, "lose")) := by
  induction players with
  | nil => rfl
  | cons p rest ih =>
      by_cases hp : p.id = pid
      · simp [List.filter_cons, hp, ih]
      · simp [List.filter_cons, hp, GuessGame.recordOf, ih]

theorem guess_records_nodup (players : List GuessGame.GPlayer) (pid : String)
    (hnd : (players.map GuessGame.GPlayer.id).Nodup) :
    ((pid, "win") ::
      (players.filter (fun p => p.id != pid)).map (fun p => (p.id, "lose"))).Nodup := by
  rw [List.nodup_cons]
  constructor
  · intro hmem
    rcases List.mem_map.mp hmem with ⟨p, hp, hpe⟩
    have : p.id ≠ pid := by simpa using (List.mem_filter.mp hp).2
    exact this (congrArg Prod.fst hpe)
  · have hsub : ((players.filter (fun p => p.id != pid)).map GuessGame.GPlayer.id).Nodup := by
      refine List.Nodup.sublist ?_ hnd
      exact List.Sublist.map _ (List.filter_sublist _)
    have hinj : Function.Injective (fun i : String => (i, ("lose" : String))) := by
      intro a b hab
      exact congrArg Prod.fst hab
    have hmm : (players.filter (fun p => p.id != pid)).map
        (fun p => (p.id, ("lose" : String))) =
        ((players.filter (fun p => p.id != pid)).map GuessGame.GPlayer.id).map
          (fun i => (i, "lose")) := by
      rw [List.map_map]
      rfl
    rw [hmm]
    exact hsub.map hinj

/-- Claim C2: for a room with secret in [1,100] and a parsed guess by member
`pid`, the sender privately receives the too-low reply iff the guess is below
the secret and the too-high reply iff it is above; exactly when the guess
equals the secret, a win notice is broadcast, one "win" outcome is recorded
for the guesser and one "lose" outcome for every other current member (and
nothing else is recorded), a new secret in [1,100] replaces the old one, and
a new-round notice is broadcast; otherwise the room state is unchanged and
nothing is recorded. -/
theorem guess_reply_win_round (room : GuessGame.GRoom) (pid : String)
    (guess : Int) (r : Nat)
    (hs1 : 1 ≤ room.secret) (hs2 : room.secret ≤ 100) (hr : r < 100)
    (hnd : (room.players.map GuessGame.GPlayer.id).Nodup) :
    (GuessGame.GuessOut.privateMsg pid "太小了" ∈
        (GuessGame.handleGuess room pid guess r).2 ↔ guess < room.secret) ∧
    (GuessGame.GuessOut.privateMsg pid "太大了" ∈
        (GuessGame.handleGuess room pid guess r).2 ↔ room.secret < guess) ∧
    (GuessGame.GuessOut.broadcastMsg
        ("玩家 " ++ pid ++ " 猜对了！答案是 " ++ toString room.secret) ∈
        (GuessGame.handleGuess room pid guess r).2 ↔ guess = room.secret) ∧
    (guess ≠ room.secret →
      (GuessGame.handleGuess room pid guess r).1 = room ∧
      ((GuessGame.handleGuess room pid guess r).2).filterMap GuessGame.recordOf = []) ∧
    (guess = room.secret →
      ((GuessGame.handleGuess room pid guess r).2).filterMap GuessGame.recordOf =
        (pid, "win") ::
          (room.players.filter (fun p => p.id != pid)).map (fun p => (p.id, "lose")) ∧
      ((pid, "win") ::
          (room.players.filter (fun p => p.id != pid)).map
            (fun p => (p.id, "lose"))).Nodup ∧
      1 ≤ (GuessGame.handleGuess room pid guess r).1.secret ∧
      (GuessGame.handleGuess room pid guess r).1.secret ≤ 100 ∧
      GuessGame.GuessOut.broadcastMsg "新一轮开始！请继续猜数字" ∈
        (GuessGame.handleGuess room pid guess r).2) := by
  rcases lt_trichotomy guess room.secret with hlt | heq | hgt
  · have h2 : ¬ room.secret < guess := by omega
    have h3 : guess ≠ room.secret := by omega
    simp [GuessGame.handleGuess, hlt, h2, h3, GuessGame.recordOf]
  · have h1 : ¬ guess < room.secret := by omega
    have h2 : ¬ guess > room.secret := by omega
    refine ⟨?_, ?_, ?_, ?_, ?_⟩
    · simp [GuessGame.handleGuess, h1, h2]
    · simp [GuessGame.handleGuess, h1, h2]
    · simp [GuessGame.handleGuess, h1, h2, heq]
    · intro hne; exact absurd heq hne
    · intro _
      refine ⟨?_, guess_records_nodup room.players pid hnd, ?_, ?_, ?_⟩
      · have hrec := guess_filterMap_records room.players pid
        simp only [List.filterMap_map] at hrec
        simp [GuessGame.handleGuess, h1, h2, GuessGame.recordOf,
              List.filterMap_append, hrec]
      · simp [GuessGame.handleGuess, h1, h2]
      · simp [GuessGame.handleGuess, h1, h2]
        omega
      · simp [GuessGame.handleGuess, h1, h2]
  · have h1 : ¬ guess < room.secret := by omega
    have h3 : guess ≠ room.secret := by omega
    simp [GuessGame.handleGuess, h1, hgt, h3, GuessGame.recordOf]

/-- Witness for claim C2: room with secret 42 and members P1, P2; P1 guesses
50 (receives the too-high reply), then 42 (win: records (P1,win) and (P2,lose),
new secret 7+1=8 in range, new-round broadcast). -/
theorem guess_reply_win_round_witness :
    (GuessGame.GuessOut.privateMsg "P1" "太大了" ∈
        (GuessGame.handleGuess ⟨"r1", [⟨"P1", 1⟩, ⟨"P2", 2⟩], 42⟩ "P1" 50 7).2) ∧
    (((GuessGame.handleGuess ⟨"r1", [⟨"P1", 1⟩, ⟨"P2", 2⟩], 42⟩ "P1" 42 7).2).filterMap
        GuessGame.recordOf =
      [("P1", "win"), ("P2", "lose")]) ∧
    1 ≤ (GuessGame.handleGuess ⟨"r1", [⟨"P1", 1⟩, ⟨"P2", 2⟩], 42⟩ "P1" 42 7).1.secret ∧
    (GuessGame.handleGuess ⟨"r1", [⟨"P1", 1⟩, ⟨"P2", 2⟩], 42⟩ "P1" 42 7).1.secret ≤ 100 := by
  have h50 := guess_reply_win_round ⟨"r1", [⟨"P1", 1⟩, ⟨"P2", 2⟩], 42⟩ "P1" 50 7
    (by decide) (by decide) (by decide) (by decide)
  have h42 := guess_reply_win_round ⟨"r1", [⟨"P1", 1⟩, ⟨"P2", 2⟩], 42⟩ "P1" 42 7
    (by decide) (by decide) (by decide) (by decide)
  refine ⟨h50.2.1.mpr (by decide), ?_, (h42.2.2.2.2 rfl).2.2.1, (h42.2.2.2.2 rfl).2.2.2.1⟩
  have hrec := (h42.2.2.2.2 rfl).1
  simpa using hrec

/-- Claim C5: resolution fires iff room membership is exactly two and both
players' moves are set; when it fires on moves in {rock, paper, scissors},
the result follows the beats-relation (equal moves tie, otherwise the player
whose move beats the other's wins), the result is returned for broadcast, and
both moves are cleared. -/
theorem rps_resolution :
    (∀ players : List RPS.RPlayer,
      (RPS.resolveStep players).isSome = true ↔
        players.length = 2 ∧ ∀ p ∈ players, p.move ≠ "") ∧
    (∀ p1 p2 : RPS.RPlayer, RPS.validMove p1.move → RPS.validMove p2.move →
      p1.move ≠ p2.move → ¬ RPS.beats p1.move p2.move →
        RPS.beats p2.move p1.move) ∧
    (∀ p1 p2 : RPS.RPlayer, RPS.validMove p1.move → RPS.validMove p2.move →
      RPS.resolveStep [p1, p2] =
        some ((if p1.move = p2.move then "平局"
               else if RPS.beats p1.move p2.move then "玩家 " ++ p1.id ++ " 赢了！"
               else "玩家 " ++ p2.id ++ " 赢了！"),
              [{ p1 with move := "" }, { p2 with move := "" }])) := by
  refine ⟨?_, ?_, ?_⟩
  · intro players
    rcases players with _ | ⟨a, _ | ⟨b, _ | ⟨c, rest⟩⟩⟩ <;>
      simp [RPS.resolveStep]
  · intro p1 p2 hv1 hv2 hne hnb
    rcases hv1 with h | h | h <;> rcases hv2 with g | g | g <;>
      simp [RPS.beats, h, g] at hne hnb ⊢
  · intro p1 p2 hv1 hv2
    have hn1 : p1.move ≠ "" := by rcases hv1 with h | h | h <;> simp [h]
    have hn2 : p2.move ≠ "" := by rcases hv2 with h | h | h <;> simp [h]
    rcases hv1 with h | h | h <;> rcases hv2 with g | g | g <;>
      simp [RPS.resolveStep, RPS.rpsDecide, RPS.beats, h, g]

/-- Witness for claim C5: a room of exactly the two members A (rock) and
B (scissors) resolves to a win for A and clears both moves. -/
theorem rps_resolution_witness :
    RPS.validMove "rock" ∧ RPS.validMove "scissors" ∧
    (RPS.resolveStep [⟨"A", 1, "rock"⟩, ⟨"B", 2, "scissors"⟩]).isSome = true ∧
    RPS.resolveStep [⟨"A", 1, "rock"⟩, ⟨"B", 2, "scissors"⟩] =
      some ("玩家 A 赢了！", [⟨"A", 1, ""⟩, ⟨"B", 2, ""⟩]) := by
  refine ⟨by decide, by decide, ?_, ?_⟩
  · exact (rps_resolution.1 [⟨"A", 1, "rock"⟩, ⟨"B", 2, "scissors"⟩]).mpr
      (by decide)
  · have h := rps_resolution.2.2 ⟨"A", 1, "rock"⟩ ⟨"B", 2, "scissors"⟩
      (by decide) (by decide)
    simpa using h

/-- Claim C10: the session stores any inbound text as the move without
validation, and whenever the two recorded moves are distinct and the first
player's move does not form one of the three winning pairs, `decide` declares
the second player the winner — in particular two distinct invalid moves give
the second player the win rather than an error. -/
theorem rps_any_text_second_wins :
    (∀ (p : RPS.RPlayer) (msg : String), (RPS.recordMove p msg).move = msg) ∧
    (∀ p1 p2 : RPS.RPlayer, p1.move ≠ p2.move → ¬ RPS.beats p1.move p2.move →
      RPS.rpsDecide p1 p2 = "玩家 " ++ p2.id ++ " 赢了！") ∧
    (∀ p1 p2 : RPS.RPlayer, p1.move ≠ "" → p2.move ≠ "" →
      p1.move ≠ p2.move → ¬ RPS.beats p1.move p2.move →
      RPS.resolveStep [p1, p2] =
        some ("玩家 " ++ p2.id ++ " 赢了！",
              [{ p1 with move := "" }, { p2 with move := "" }])) := by
  have hdec : ∀ p1 p2 : RPS.RPlayer, p1.move ≠ p2.move →
      ¬ RPS.beats p1.move p2.move →
      RPS.rpsDecide p1 p2 = "玩家 " ++ p2.id ++ " 赢了！" := by
    intro p1 p2 hne hnb
    unfold RPS.rpsDecide
    rw [if_neg hne, if_neg (by simpa [RPS.beats] using hnb)]
  refine ⟨fun p msg => rfl, hdec, ?_⟩
  intro p1 p2 hn1 hn2 hne hnb
  simp [RPS.resolveStep, hn1, hn2, hdec p1 p2 hne hnb]

/-- Witness for claim C10: the invalid moves "foo" and "bar" are both stored
verbatim and resolved as a win for the second player. -/
theorem rps_any_text_second_wins_witness :
    (RPS.recordMove ⟨"A", 1, ""⟩ "foo").move = "foo" ∧
    ("foo" : String) ≠ "bar" ∧ ¬ RPS.beats "foo" "bar" ∧
    RPS.resolveStep [⟨"A", 1, "foo"⟩, ⟨"B", 2, "bar"⟩] =
      some ("玩家 B 赢了！", [⟨"A", 1, ""⟩, ⟨"B", 2, ""⟩]) := by
  refine ⟨rps_any_text_second_wins.1 ⟨"A", 1, ""⟩ "foo", by decide, by decide, ?_⟩
  have h := rps_any_text_second_wins.2.2 ⟨"A", 1, "foo"⟩ ⟨"B", 2, "bar"⟩
    (by decide) (by decide) (by decide) (by decide)
  simpa using h

theorem chatBroadcast_foldl (members : List Broadcast.Member)
    (acc : Broadcast.BroadcastResult) :
    members.foldl
      (fun acc m =>
        if m.ok then
          { acc with delivered := acc.delivered ++ [m.conn],
                     remaining := acc.remaining ++ [m] }
        else
          { acc with logged := acc.logged ++ [m.conn] })
      acc =
    ⟨acc.delivered ++ (members.filter (fun m => m.ok)).map Broadcast.Member.conn,
     acc.logged ++ (members.filter (fun m => !m.ok)).map Broadcast.Member.conn,
     acc.remaining ++ members.filter (fun m => m.ok)⟩ := by
  induction members generalizing acc with
  | nil => simp
  | cons m rest ih =>
      cases hok : m.ok <;>
        simp [List.foldl_cons, hok, ih, List.filter_cons]

theorem rpsBroadcast_foldl (members : List Broadcast.Member)
    (acc : Broadcast.BroadcastResult) :
    members.foldl
      (fun acc m =>
        if m.ok then
          { acc with delivered := acc.delivered ++ [m.conn],
                     remaining := acc.remaining ++ [m] }
        else
          { acc with logged := acc.logged ++ [m.conn],
                     remaining := acc.remaining ++ [m] })
      acc =
    ⟨acc.delivered ++ (members.filter (fun m => m.ok)).map Broadcast.Member.conn,
     acc.logged ++ (members.filter (fun m => !m.ok)).map Broadcast.Member.conn,
     acc.remaining ++ members⟩ := by
  induction members generalizing acc with
  | nil => simp
  | cons m rest ih =>
      cases hok : m.ok <;>
        simp [List.foldl_cons, hok, ih, List.filter_cons]

theorem guessBroadcast_foldl (members : List Broadcast.Member)
    (acc : Broadcast.BroadcastResult) :
    members.foldl
      (fun acc m =>
        if m.ok then
          { acc with delivered := acc.delivered ++ [m.conn],
                     remaining := acc.remaining ++ [m] }
        else
          { acc with remaining := acc.remaining ++ [m] })
      acc =
    ⟨acc.delivered ++ (members.filter (fun m => m.ok)).map Broadcast.Member.conn,
     acc.logged,
     acc.remaining ++ members⟩ := by
  induction members generalizing acc with
  | nil => simp
  | cons m rest ih =>
      cases hok : m.ok <;>
        simp [List.foldl_cons, hok, ih, List.filter_cons]

/-- Claim C6 counterexample: broadcasting to the members {conn 1 ok, conn 2
failed}, the number-guessing variant's broadcast logs nothing (the claim says
every failing member is logged), and the rock-paper-scissors variant — a
synchronous-broadcast variant — keeps the failing member in the membership
(the claim says it is immediately removed).  Delivery to the working member
does continue in both. -/
theorem broadcast_failure_handling_cex :
    (Broadcast.guessBroadcast [⟨1, true⟩, ⟨2, false⟩]).logged = [] ∧
    (Broadcast.rpsBroadcast [⟨1, true⟩, ⟨2, false⟩]).remaining =
      [⟨1, true⟩, ⟨2, false⟩] ∧
    (Broadcast.guessBroadcast [⟨1, true⟩, ⟨2, false⟩]).delivered = [1] ∧
    (Broadcast.rpsBroadcast [⟨1, true⟩, ⟨2, false⟩]).delivered = [1] := by
  decide

/-- Claim C6 as amended: in every variant a send failure never aborts
delivery — every member whose channel has not failed receives the message.
The failing member is logged and immediately removed from membership in the
channel-driven chat variants; in the rock-paper-scissors variant it is logged
but kept; in the number-guessing variant the failure is neither logged nor
acted on and the member is kept. -/
theorem broadcast_failure_handling (members : List Broadcast.Member) :
    (Broadcast.chatBroadcast members).delivered =
      (members.filter (fun m => m.ok)).map Broadcast.Member.conn ∧
    (Broadcast.chatBroadcast members).logged =
      (members.filter (fun m => !m.ok)).map Broadcast.Member.conn ∧
    (Broadcast.chatBroadcast members).remaining =
      members.filter (fun m => m.ok) ∧
    (Broadcast.rpsBroadcast members).delivered =
      (members.filter (fun m => m.ok)).map Broadcast.Member.conn ∧
    (Broadcast.rpsBroadcast members).logged =
      (members.filter (fun m => !m.ok)).map Broadcast.Member.conn ∧
    (Broadcast.rpsBroadcast members).remaining = members ∧
    (Broadcast.guessBroadcast members).delivered =
      (members.filter (fun m => m.ok)).map Broadcast.Member.conn ∧
    (Broadcast.guessBroadcast members).logged = [] ∧
    (Broadcast.guessBroadcast members).remaining = members := by
  have hc := chatBroadcast_foldl members ⟨[], [], []⟩
  have hr := rpsBroadcast_foldl members ⟨[], [], []⟩
  have hg := guessBroadcast_foldl members ⟨[], [], []⟩
  unfold Broadcast.chatBroadcast Broadcast.rpsBroadcast Broadcast.guessBroadcast
  rw [hc, hr, hg]
  simp

theorem roomInbound_length (roomName msg : String) :
    (Chat.roomInbound roomName msg).length = roomName.length + msg.length + 3 := by
  unfold Chat.roomInbound
  have h1 : ("[" : String).length = 1 := rfl
  have h2 : ("] " : String).length = 2 := rfl
  simp [String.length_append, h1, h2]
  omega

/-- Claim C8 counterexample: in the single-room chat variant the inbound text
"hi" is broadcast as "hi" itself, a string of length 2 — by
`roomInbound_length`, every string of the wrapped form "[<room>] <text>" with
text "hi" has length at least 5, so the single-room variant does not wrap its
broadcasts with a room name. -/
theorem chat_single_not_wrapped :
    Chat.singleInbound "hi" = "hi" ∧
    ("hi" : String).length = 2 ∧
    (Chat.roomInbound "" "hi").length = 5 := by
  refine ⟨rfl, rfl, ?_⟩
  rw [roomInbound_length]
  rfl

/-- Claim C8 as amended: the multi-room chat variant broadcasts every inbound
message wrapped as "[<room>] <text>" with the original text otherwise
verbatim, while the single-room variant broadcasts the inbound text verbatim
with no wrapping; in both variants the message is delivered to every current
member whose channel works, including the sender. -/
theorem chat_inbound_broadcast (roomName msg : String)
    (members : List Broadcast.Member) (s : Broadcast.Member)
    (hs : s ∈ members) (hok : s.ok = true) :
    (s.conn, "[" ++ roomName ++ "] " ++ msg) ∈
      Chat.roomDeliver roomName members msg ∧
    (s.conn, msg) ∈ Chat.singleDeliver members msg ∧
    (∀ p ∈ Chat.roomDeliver roomName members msg,
      p.2 = "[" ++ roomName ++ "] " ++ msg) ∧
    (∀ p ∈ Chat.singleDeliver members msg, p.2 = msg) := by
  have hc := chatBroadcast_foldl members ⟨[], [], []⟩
  unfold Chat.roomDeliver Chat.singleDeliver Broadcast.chatBroadcast
  rw [hc]
  simp only [List.nil_append, List.mem_map, List.mem_filter]
  refine ⟨?_, ?_, ?_, ?_⟩
  · exact ⟨s.conn, ⟨s, ⟨hs, hok⟩, rfl⟩, rfl⟩
  · exact ⟨s.conn, ⟨s, ⟨hs, hok⟩, rfl⟩, rfl⟩
  · rintro p ⟨c, _, rfl⟩; rfl
  · rintro p ⟨c, _, rfl⟩; rfl

/-- Witness for the amended claim C8: a single working member is also the
sender and receives "[r1] hi" in the multi-room variant and "hi" in the
single-room variant. -/
theorem chat_inbound_broadcast_witness :
    (⟨1, true⟩ : Broadcast.Member) ∈ [(⟨1, true⟩ : Broadcast.Member)] ∧
    ((1 : Nat), ("[r1] hi" : String)) ∈
      Chat.roomDeliver "r1" [⟨1, true⟩] "hi" ∧
    ((1 : Nat), ("hi" : String)) ∈ Chat.singleDeliver [⟨1, true⟩] "hi" := by
  have h := chat_inbound_broadcast "r1" "hi" [⟨1, true⟩] ⟨1, true⟩
    (by simp) rfl
  exact ⟨by simp, h.1, h.2.1⟩

/-- Claim C3 counterexample: snakes A at (5,5) moving right and B at (7,5)
moving left both target the free cell (6,5), which is in neither snake's
pre-tick body.  The code's sequential tick (`update`, iteration order A then
B) advances A to (6,5) first and then kills B against A's already-advanced
body, while the claim's pre-tick-read semantics (`updateSpec`) lets B advance
to (6,5) alive — so the code's opponent check does read mid-tick state. -/
theorem snake_tick_not_pretick_cex :
    SnakeGame.findSnake
        (SnakeGame.update 20 20 (fun _ => ⟨0, 0⟩)
          ⟨[⟨"A", [⟨5, 5⟩], "right", 0, true⟩, ⟨"B", [⟨7, 5⟩], "left", 0, true⟩],
           ⟨0, 0⟩, 0, [], false, false⟩ ["A", "B"]).players "B" =
      some ⟨"B", [⟨7, 5⟩], "left", 0, false⟩ ∧
    SnakeGame.findSnake
        (SnakeGame.updateSpec 20 20 (fun _ => ⟨0, 0⟩)
          ⟨[⟨"A", [⟨5, 5⟩], "right", 0, true⟩, ⟨"B", [⟨7, 5⟩], "left", 0, true⟩],
           ⟨0, 0⟩, 0, [], false, false⟩ ["A", "B"]).players "B" =
      some ⟨"B", [⟨6, 5⟩], "left", 0, true⟩ := by
  decide

/-- Claim C4 counterexample: snake A at (5,5) moving right eats the food at
(6,5) (body length and score do grow by one), but the redraw's random stream
returns the occupied cell (6,5) for all 200 attempts, so `randomEmptyCell`
falls back to the previous food cell — the food broadcast at the end of the
tick is (6,5), inside A's own body. -/
theorem snake_food_in_body_cex :
    (SnakeGame.update 20 20 (fun _ => ⟨6, 5⟩)
        ⟨[⟨"A", [⟨5, 5⟩], "right", 0, true⟩], ⟨6, 5⟩, 0, [], false, false⟩
        ["A"]).food = ⟨6, 5⟩ ∧
    SnakeGame.findSnake
        (SnakeGame.update 20 20 (fun _ => ⟨6, 5⟩)
          ⟨[⟨"A", [⟨5, 5⟩], "right", 0, true⟩], ⟨6, 5⟩, 0, [], false, false⟩
          ["A"]).players "A" =
      some ⟨"A", [⟨6, 5⟩, ⟨6, 5⟩], "right", 1, true⟩ ∧
    SnakeGame.cellOccupied
        (SnakeGame.update 20 20 (fun _ => ⟨6, 5⟩)
          ⟨[⟨"A", [⟨5, 5⟩], "right", 0, true⟩], ⟨6, 5⟩, 0, [], false, false⟩
          ["A"]).players
        (SnakeGame.update 20 20 (fun _ => ⟨6, 5⟩)
          ⟨[⟨"A", [⟨5, 5⟩], "right", 0, true⟩], ⟨6, 5⟩, 0, [], false, false⟩
          ["A"]).food = true := by
  decide

namespace SnakeGame

theorem findSnake_id {players : List Snake} {sid : String} {s : Snake}
    (h : findSnake players sid = some s) : s.id = sid := by
  have := List.find?_some h
  simpa using this

theorem findSnake_mem {players : List Snake} {sid : String} {s : Snake}
    (h : findSnake players sid = some s) : s ∈ players :=
  List.mem_of_find?_eq_some h

theorem findSnake_replace_self {players : List Snake} {sid : String}
    {snake s₂ : Snake} (hfind : findSnake players sid = some snake)
    (hid : s₂.id = snake.id) :
    findSnake (replaceSnake players s₂) sid = some s₂ := by
  have hsid : snake.id = sid := findSnake_id hfind
  induction players with
  | nil => simp [findSnake] at hfind
  | cons t rest ih =>
      by_cases ht : t.id = sid
      · have hs2 : s₂.id = sid := by rw [hid, hsid]
        have : t.id = s₂.id := by rw [ht, hs2]
        simp [replaceSnake, findSnake, this, hs2]
      · have hfind' : findSnake rest sid = some snake := by
          simpa [findSnake, List.find?_cons, ht] using hfind
        have hts : ¬ t.id = s₂.id := by
          rw [hid, hsid]; exact ht
        have := ih hfind'
        simpa [replaceSnake, findSnake, List.find?_cons, hts, ht] using this

theorem findSnake_replace_other {players : List Snake} {did : String}
    {s₂ : Snake} (h : s₂.id ≠ did) :
    findSnake (replaceSnake players s₂) did = findSnake players did := by
  induction players with
  | nil => rfl
  | cons t rest ih =>
      show findSnake ((if t.id = s₂.id then s₂ else t) :: replaceSnake rest s₂) did =
        findSnake (t :: rest) did
      by_cases ht : t.id = s₂.id
      · have h2 : (s₂.id == did) = false := by simpa using h
        have h3 : (t.id == did) = false := by rw [ht]; exact h2
        rw [if_pos ht]
        unfold findSnake
        rw [List.find?_cons_of_neg _ (by simp [h2]), List.find?_cons_of_neg _ (by simp [h3])]
        exact ih
      · rw [if_neg ht]
        by_cases htd : t.id = did
        · unfold findSnake
          rw [List.find?_cons_of_pos _ (by simp [htd]), List.find?_cons_of_pos _ (by simp [htd])]
        · unfold findSnake
          rw [List.find?_cons_of_neg _ (by simp [htd]), List.find?_cons_of_neg _ (by simp [htd])]
          exact ih

theorem cellOccupied_eq_false {players : List Snake} {p : Point} :
    cellOccupied players p = false ↔ ∀ s ∈ players, p ∉ s.body := by
  simp [cellOccupied]

theorem cellOccupied_replace_false {players : List Snake} {s₂ : Snake}
    {p : Point} (h : cellOccupied players p = false) (hb : p ∉ s₂.body) :
    cellOccupied (replaceSnake players s₂) p = false := by
  rw [cellOccupied_eq_false] at h ⊢
  intro t ht
  rcases List.mem_map.mp ht with ⟨u, hu, he⟩
  by_cases hui : u.id = s₂.id
  · simp [hui] at he
    rw [← he]
    exact hb
  · simp [hui] at he
    rw [← he]
    exact h u hu

theorem randomEmptyCellAux_success (rnd : Nat → Point) (players : List Snake)
    (fallback : Point) (k fuel : Nat)
    (h : (randomEmptyCellAux rnd players fallback k fuel).2.2 = false) :
    cellOccupied players (randomEmptyCellAux rnd players fallback k fuel).1 = false := by
  induction fuel generalizing k with
  | zero => simp [randomEmptyCellAux] at h
  | succ n ih =>
      by_cases hc : cellOccupied players (rnd k) = true
      · rw [randomEmptyCellAux, if_pos hc] at h ⊢
        exact ih (k + 1) h
      · rw [randomEmptyCellAux, if_neg hc]
        simpa using hc

end SnakeGame

namespace SnakeGame

theorem stepSnake_advance (w h : Int) (rnd : Nat → Point) (st : TickState)
    (sid : String) (snake : Snake) (c : Point)
    (hfind : findSnake st.players sid = some snake)
    (halive : snake.alive = true) (hbody : snake.body ≠ [])
    (hc : moveHead snake.body.headI snake.dir = c)
    (hwall : ¬ (c.x < 0 ∨ w ≤ c.x ∨ c.y < 0 ∨ h ≤ c.y))
    (hself : c ∉ snake.body)
    (hother : ¬ ∃ other ∈ st.players, other.id ≠ snake.id ∧ c ∈ other.body)
    (hfood : c ≠ st.food) :
    stepSnake w h rnd st sid =
      { st with players :=
          replaceSnake st.players { snake with body := c :: snake.body.dropLast } } := by
  simp only [stepSnake, hfind, hc]
  rw [if_neg (by simp [halive, hbody]), if_neg hwall, if_neg hself, if_neg hother,
      if_neg hfood]

theorem stepSnake_eat (w h : Int) (rnd : Nat → Point) (st : TickState)
    (sid : String) (snake : Snake) (c : Point)
    (hfind : findSnake st.players sid = some snake)
    (halive : snake.alive = true) (hbody : snake.body ≠ [])
    (hc : moveHead snake.body.headI snake.dir = c)
    (hwall : ¬ (c.x < 0 ∨ w ≤ c.x ∨ c.y < 0 ∨ h ≤ c.y))
    (hself : c ∉ snake.body)
    (hother : ¬ ∃ other ∈ st.players, other.id ≠ snake.id ∧ c ∈ other.body)
    (hfood : c = st.food) :
    stepSnake w h rnd st sid =
      { st with
        players := replaceSnake st.players
          { snake with
            body := (c :: snake.body.dropLast) ++
              [(c :: snake.body.dropLast).getLastD ⟨0, 0⟩],
            score := snake.score + 1 },
        food := (randomEmptyCell rnd
          (replaceSnake st.players
            { snake with
              body := (c :: snake.body.dropLast) ++
                [(c :: snake.body.dropLast).getLastD ⟨0, 0⟩],
              score := snake.score + 1 }) st.food st.k).1,
        k := (randomEmptyCell rnd
          (replaceSnake st.players
            { snake with
              body := (c :: snake.body.dropLast) ++
                [(c :: snake.body.dropLast).getLastD ⟨0, 0⟩],
              score := snake.score + 1 }) st.food st.k).2.1,
        ateFood := true,
        fellBack := st.fellBack ||
          (randomEmptyCell rnd
            (replaceSnake st.players
              { snake with
                body := (c :: snake.body.dropLast) ++
                  [(c :: snake.body.dropLast).getLastD ⟨0, 0⟩],
                score := snake.score + 1 }) st.food st.k).2.2 } := by
  simp only [stepSnake, hfind, hc]
  rw [if_neg (by simp [halive, hbody]), if_neg hwall, if_neg hself, if_neg hother,
      if_pos hfood]

theorem stepSnake_die_other (w h : Int) (rnd : Nat → Point) (st : TickState)
    (sid : String) (snake : Snake) (c : Point)
    (hfind : findSnake st.players sid = some snake)
    (halive : snake.alive = true) (hbody : snake.body ≠ [])
    (hc : moveHead snake.body.headI snake.dir = c)
    (hwall : ¬ (c.x < 0 ∨ w ≤ c.x ∨ c.y < 0 ∨ h ≤ c.y))
    (hself : c ∉ snake.body)
    (hother : ∃ other ∈ st.players, other.id ≠ snake.id ∧ c ∈ other.body) :
    stepSnake w h rnd st sid =
      { st with players := replaceSnake st.players { snake with alive := false },
                scores := st.scores ++ [(snake.id, snake.score)] } := by
  simp only [stepSnake, hfind, hc]
  rw [if_neg (by simp [halive, hbody]), if_neg hwall, if_neg hself, if_pos hother]

theorem stepSnakeSpec_advance (w h : Int) (rnd : Nat → Point)
    (pre : List Snake) (st : TickState) (sid : String) (snake : Snake)
    (c : Point)
    (hfind : findSnake pre sid = some snake)
    (halive : snake.alive = true) (hbody : snake.body ≠ [])
    (hc : moveHead snake.body.headI snake.dir = c)
    (hwall : ¬ (c.x < 0 ∨ w ≤ c.x ∨ c.y < 0 ∨ h ≤ c.y))
    (hself : c ∉ snake.body)
    (hother : ¬ ∃ other ∈ pre, other.id ≠ snake.id ∧ c ∈ other.body)
    (hfood : c ≠ st.food) :
    stepSnakeSpec w h rnd pre st sid =
      { st with players :=
          replaceSnake st.players { snake with body := c :: snake.body.dropLast } } := by
  simp only [stepSnakeSpec, hfind, hc]
  rw [if_neg (by simp [halive, hbody]), if_neg hwall, if_neg hself, if_neg hother,
      if_neg hfood]

end SnakeGame

/-- Claim C3 as amended: within one tick, snakes are processed sequentially
in map iteration order and each snake's collision checks read the player list
as already modified by the snakes processed earlier in the same tick.  In
particular, when snake `a` (processed first) advances into a free cell `c`
that lies in neither snake's pre-tick body and snake `b` (processed second)
also targets `c`, the code kills `b` against `a`'s already-advanced body,
whereas under the claimed pre-tick-read semantics `b` would advance alive. -/
theorem snake_sequential_vs_pretick (w h : Int) (rnd : Nat → SnakeGame.Point)
    (a b : SnakeGame.Snake) (food : SnakeGame.Point) (k : Nat)
    (c : SnakeGame.Point)
    (hab : a.id ≠ b.id)
    (haal : a.alive = true) (hab0 : a.body ≠ [])
    (hca : SnakeGame.moveHead a.body.headI a.dir = c)
    (hbal : b.alive = true) (hbb0 : b.body ≠ [])
    (hcb : SnakeGame.moveHead b.body.headI b.dir = c)
    (hwall : ¬ (c.x < 0 ∨ w ≤ c.x ∨ c.y < 0 ∨ h ≤ c.y))
    (hsa : c ∉ a.body) (hsb : c ∉ b.body)
    (hfood : c ≠ food) :
    SnakeGame.findSnake
        (SnakeGame.update w h rnd ⟨[a, b], food, k, [], false, false⟩
          [a.id, b.id]).players b.id =
      some { b with alive := false } ∧
    SnakeGame.findSnake
        (SnakeGame.updateSpec w h rnd ⟨[a, b], food, k, [], false, false⟩
          [a.id, b.id]).players b.id =
      some { b with body := c :: b.body.dropLast } := by
  have hba : ¬ b.id = a.id := fun hh => hab hh.symm
  have hfa : SnakeGame.findSnake [a, b] a.id = some a := by
    simp [SnakeGame.findSnake]
  have hfb : SnakeGame.findSnake [a, b] b.id = some b := by
    simp [SnakeGame.findSnake]
    exact Or.inr hab
  have hothera : ¬ ∃ other ∈ [a, b], other.id ≠ a.id ∧ c ∈ other.body := by
    rintro ⟨o, ho, hne, hmem⟩
    rcases List.mem_pair.mp ho with rfl | rfl
    · exact hne rfl
    · exact hsb hmem
  have hotherb : ¬ ∃ other ∈ [a, b], other.id ≠ b.id ∧ c ∈ other.body := by
    rintro ⟨o, ho, hne, hmem⟩
    rcases List.mem_pair.mp ho with rfl | rfl
    · exact hsa hmem
    · exact hne rfl
  have hmove : SnakeGame.replaceSnake [a, b]
      { a with body := c :: a.body.dropLast } =
      [{ a with body := c :: a.body.dropLast }, b] := by
    simp [SnakeGame.replaceSnake, hba]
  constructor
  · -- sequential code semantics
    have h1 := SnakeGame.stepSnake_advance w h rnd
      ⟨[a, b], food, k, [], false, false⟩ a.id a c hfa haal hab0 hca hwall hsa
      hothera (by simpa using hfood)
    show SnakeGame.findSnake
        (SnakeGame.stepSnake w h rnd
          (SnakeGame.stepSnake w h rnd ⟨[a, b], food, k, [], false, false⟩ a.id)
          b.id).players b.id = some { b with alive := false }
    rw [h1]
    simp only [hmove]
    have hfb1 : SnakeGame.findSnake [{ a with body := c :: a.body.dropLast }, b]
        b.id = some b := by
      simp [SnakeGame.findSnake]
      exact Or.inr hab
    have hother1 : ∃ other ∈ [{ a with body := c :: a.body.dropLast }, b],
        other.id ≠ b.id ∧ c ∈ other.body := by
      refine ⟨{ a with body := c :: a.body.dropLast }, by simp, hab, by simp⟩
    have h2 := SnakeGame.stepSnake_die_other w h rnd
      ⟨[{ a with body := c :: a.body.dropLast }, b], food, k, [], false, false⟩
      b.id b c hfb1 hbal hbb0 hcb hwall hsb hother1
    rw [h2]
    exact SnakeGame.findSnake_replace_self hfb1 rfl
  · -- spec (pre-tick) semantics
    have h1 := SnakeGame.stepSnakeSpec_advance w h rnd [a, b]
      ⟨[a, b], food, k, [], false, false⟩ a.id a c hfa haal hab0 hca hwall hsa
      hothera (by simpa using hfood)
    show SnakeGame.findSnake
        (SnakeGame.stepSnakeSpec w h rnd [a, b]
          (SnakeGame.stepSnakeSpec w h rnd [a, b]
            ⟨[a, b], food, k, [], false, false⟩ a.id)
          b.id).players b.id = some { b with body := c :: b.body.dropLast }
    rw [h1]
    simp only [hmove]
    have hfb1 : SnakeGame.findSnake [{ a with body := c :: a.body.dropLast }, b]
        b.id = some b := by
      simp [SnakeGame.findSnake]
      exact Or.inr hab
    have h2 := SnakeGame.stepSnakeSpec_advance w h rnd [a, b]
      ⟨[{ a with body := c :: a.body.dropLast }, b], food, k, [], false, false⟩
      b.id b c hfb hbal hbb0 hcb hwall hsb hotherb (by simpa using hfood)
    rw [h2]
    exact SnakeGame.findSnake_replace_self hfb1 rfl

/-- Witness for the amended claim C3 at the concrete counterexample state:
A at (5,5) heading right and B at (7,5) heading left on a 20x20 grid with the
food elsewhere. -/
theorem snake_sequential_vs_pretick_witness :
    SnakeGame.findSnake
        (SnakeGame.update 20 20 (fun _ => ⟨0, 0⟩)
          ⟨[⟨"A", [⟨5, 5⟩], "right", 0, true⟩, ⟨"B", [⟨7, 5⟩], "left", 0, true⟩],
           ⟨0, 0⟩, 3, [], false, false⟩ ["A", "B"]).players "B" =
      some ⟨"B", [⟨7, 5⟩], "left", 0, false⟩ ∧
    SnakeGame.findSnake
        (SnakeGame.updateSpec 20 20 (fun _ => ⟨0, 0⟩)
          ⟨[⟨"A", [⟨5, 5⟩], "right", 0, true⟩, ⟨"B", [⟨7, 5⟩], "left", 0, true⟩],
           ⟨0, 0⟩, 3, [], false, false⟩ ["A", "B"]).players "B" =
      some ⟨"B", [⟨6, 5⟩], "left", 0, true⟩ := by
  have h := snake_sequential_vs_pretick 20 20 (fun _ => ⟨0, 0⟩)
    ⟨"A", [⟨5, 5⟩], "right", 0, true⟩ ⟨"B", [⟨7, 5⟩], "left", 0, true⟩
    ⟨0, 0⟩ 3 ⟨6, 5⟩ (by decide) rfl (by decide) (by decide) rfl (by decide)
    (by decide) (by decide) (by decide) (by decide)
  simpa using h

namespace SnakeGame

theorem stepSnake_dead_preserved (w h : Int) (rnd : Nat → Point)
    (st : TickState) (sid did : String) (d : Snake)
    (hfind : findSnake st.players did = some d) (hdead : d.alive = false) :
    findSnake (stepSnake w h rnd st sid).players did = some d := by
  unfold stepSnake
  cases hf : findSnake st.players sid with
  | none => exact hfind
  | some snake =>
      have hsid : snake.id = sid := findSnake_id hf
      simp only []
      by_cases hskip : snake.alive = false ∨ snake.body = []
      · rw [if_pos hskip]
        exact hfind
      · rw [if_neg hskip]
        have halive : snake.alive = true := by
          rcases hskip' : snake.alive with _ | _
          · exact absurd (Or.inl hskip') hskip
          · rfl
        have hne : snake.id ≠ did := by
          intro hh
          rw [hsid] at hh
          rw [hh] at hf
          rw [hf] at hfind
          cases hfind
          rw [halive] at hdead
          cases hdead
        split
        · exact (findSnake_replace_other (by exact hne)).trans hfind
        · split
          · exact (findSnake_replace_other (by exact hne)).trans hfind
          · split
            · exact (findSnake_replace_other (by exact hne)).trans hfind
            · split
              · exact (findSnake_replace_other (by exact hne)).trans hfind
              · exact (findSnake_replace_other (by exact hne)).trans hfind

theorem update_dead_preserved (w h : Int) (rnd : Nat → Point)
    (st : TickState) (order : List String) (did : String) (d : Snake)
    (hfind : findSnake st.players did = some d) (hdead : d.alive = false) :
    findSnake (update w h rnd st order).players did = some d := by
  induction order generalizing st with
  | nil => exact hfind
  | cons sid rest ih =>
      exact ih _ (stepSnake_dead_preserved w h rnd st sid did d hfind hdead)

end SnakeGame

/-- Claim C9: the tick update never removes a dead snake's body — a dead
snake's map entry (body included) is left exactly as is by every tick, and
its body segments still act as obstacles: an alive snake whose next head
lands on a dead snake's segment dies by the opponent-collision check and its
outcome is recorded. -/
theorem snake_dead_body_persists :
    (∀ (w h : Int) (rnd : Nat → SnakeGame.Point) (st : SnakeGame.TickState)
        (order : List String) (did : String) (d : SnakeGame.Snake),
      SnakeGame.findSnake st.players did = some d → d.alive = false →
      SnakeGame.findSnake (SnakeGame.update w h rnd st order).players did =
        some d) ∧
    (∀ (w h : Int) (rnd : Nat → SnakeGame.Point) (st : SnakeGame.TickState)
        (sid : String) (b d : SnakeGame.Snake) (c : SnakeGame.Point),
      SnakeGame.findSnake st.players sid = some b → b.alive = true →
      b.body ≠ [] → SnakeGame.moveHead b.body.headI b.dir = c →
      ¬ (c.x < 0 ∨ w ≤ c.x ∨ c.y < 0 ∨ h ≤ c.y) → c ∉ b.body →
      d ∈ st.players → d.alive = false → d.id ≠ b.id → c ∈ d.body →
      SnakeGame.findSnake (SnakeGame.stepSnake w h rnd st sid).players sid =
        some { b with alive := false } ∧
      (SnakeGame.stepSnake w h rnd st sid).scores =
        st.scores ++ [(b.id, b.score)]) := by
  constructor
  · intro w h rnd st order did d hfind hdead
    exact SnakeGame.update_dead_preserved w h rnd st order did d hfind hdead
  · intro w h rnd st sid b d c hfind halive hbody hc hwall hself hdmem hdead
      hdid hcd
    have hother : ∃ other ∈ st.players, other.id ≠ b.id ∧ c ∈ other.body :=
      ⟨d, hdmem, hdid, hcd⟩
    have hstep := SnakeGame.stepSnake_die_other w h rnd st sid b c hfind halive
      hbody hc hwall hself hother
    rw [hstep]
    exact ⟨SnakeGame.findSnake_replace_self hfind rfl, rfl⟩

/-- Witness for claim C9: dead snake D occupies (3,3); alive snake B at (2,3)
heading right.  A tick leaves D's entry untouched, and B dies against D's
body with its score recorded. -/
theorem snake_dead_body_persists_witness :
    SnakeGame.findSnake
        (SnakeGame.update 20 20 (fun _ => ⟨0, 0⟩)
          ⟨[⟨"D", [⟨3, 3⟩], "up", 5, false⟩, ⟨"B", [⟨2, 3⟩], "right", 0, true⟩],
           ⟨0, 0⟩, 0, [], false, false⟩ ["D", "B"]).players "D" =
      some ⟨"D", [⟨3, 3⟩], "up", 5, false⟩ ∧
    SnakeGame.findSnake
        (SnakeGame.stepSnake 20 20 (fun _ => ⟨0, 0⟩)
          ⟨[⟨"D", [⟨3, 3⟩], "up", 5, false⟩, ⟨"B", [⟨2, 3⟩], "right", 0, true⟩],
           ⟨0, 0⟩, 0, [], false, false⟩ "B").players "B" =
      some ⟨"B", [⟨2, 3⟩], "right", 0, false⟩ ∧
    (SnakeGame.stepSnake 20 20 (fun _ => ⟨0, 0⟩)
        ⟨[⟨"D", [⟨3, 3⟩], "up", 5, false⟩, ⟨"B", [⟨2, 3⟩], "right", 0, true⟩],
         ⟨0, 0⟩, 0, [], false, false⟩ "B").scores = [("B", 0)] := by
  have h1 := snake_dead_body_persists.1 20 20 (fun _ => ⟨0, 0⟩)
    ⟨[⟨"D", [⟨3, 3⟩], "up", 5, false⟩, ⟨"B", [⟨2, 3⟩], "right", 0, true⟩],
     ⟨0, 0⟩, 0, [], false, false⟩ ["D", "B"] "D"
    ⟨"D", [⟨3, 3⟩], "up", 5, false⟩ (by decide) rfl
  have h2 := snake_dead_body_persists.2 20 20 (fun _ => ⟨0, 0⟩)
    ⟨[⟨"D", [⟨3, 3⟩], "up", 5, false⟩, ⟨"B", [⟨2, 3⟩], "right", 0, true⟩],
     ⟨0, 0⟩, 0, [], false, false⟩ "B"
    ⟨"B", [⟨2, 3⟩], "right", 0, true⟩ ⟨"D", [⟨3, 3⟩], "up", 5, false⟩ ⟨3, 3⟩
    (by decide) rfl (by decide) (by decide) (by decide) (by decide)
    (by decide) rfl (by decide) (by decide)
  exact ⟨h1, by simpa using h2.1, by simpa using h2.2⟩

namespace SnakeGame

theorem randomEmptyCell_success (rnd : Nat → Point) (players : List Snake)
    (fallback : Point) (k : Nat)
    (h : (randomEmptyCell rnd players fallback k).2.2 = false) :
    cellOccupied players (randomEmptyCell rnd players fallback k).1 = false :=
  randomEmptyCellAux_success rnd players fallback k 200 h

theorem stepSnake_fellBack_mono (w h : Int) (rnd : Nat → Point)
    (st : TickState) (sid : String) (hfb : st.fellBack = true) :
    (stepSnake w h rnd st sid).fellBack = true := by
  unfold stepSnake
  cases hf : findSnake st.players sid with
  | none => exact hfb
  | some snake =>
      simp only []
      split
      · exact hfb
      · split
        · exact hfb
        · split
          · exact hfb
          · split
            · exact hfb
            · split
              · show (st.fellBack || _) = true
                rw [hfb]
                rfl
              · exact hfb

theorem update_fellBack_mono (w h : Int) (rnd : Nat → Point) (st : TickState)
    (order : List String) (hfb : st.fellBack = true) :
    (update w h rnd st order).fellBack = true := by
  induction order generalizing st with
  | nil => exact hfb
  | cons sid rest ih =>
      exact ih _ (stepSnake_fellBack_mono w h rnd st sid hfb)

theorem stepSnake_food_free (w h : Int) (rnd : Nat → Point) (st : TickState)
    (sid : String)
    (hinv : st.ateFood = true → cellOccupied st.players st.food = false) :
    (stepSnake w h rnd st sid).fellBack = false →
    (stepSnake w h rnd st sid).ateFood = true →
    cellOccupied (stepSnake w h rnd st sid).players
      (stepSnake w h rnd st sid).food = false := by
  unfold stepSnake
  cases hf : findSnake st.players sid with
  | none => intro _ hate; exact hinv hate
  | some snake =>
      have hmem := findSnake_mem hf
      simp only []
      split
      · intro _ hate
        exact hinv hate
      · split
        · -- wall death: bodies unchanged
          intro _ hate
          have h0 := hinv hate
          exact cellOccupied_replace_false h0 ((cellOccupied_eq_false.mp h0) snake hmem)
        · split
          · -- self collision death
            intro _ hate
            have h0 := hinv hate
            exact cellOccupied_replace_false h0 ((cellOccupied_eq_false.mp h0) snake hmem)
          · split
            · -- opponent collision death
              intro _ hate
              have h0 := hinv hate
              exact cellOccupied_replace_false h0 ((cellOccupied_eq_false.mp h0) snake hmem)
            · split
              · -- the snake eats: the redraw succeeded, so the new food is free
                intro hfb _
                have key : ∀ P : List Snake,
                    (st.fellBack || (randomEmptyCell rnd P st.food st.k).2.2) = false →
                    cellOccupied P (randomEmptyCell rnd P st.food st.k).1 = false := by
                  intro P hP
                  have hres : (randomEmptyCell rnd P st.food st.k).2.2 = false := by
                    simp at hP
                    exact hP.2
                  exact randomEmptyCell_success rnd P st.food st.k hres
                apply key
                exact hfb
              · -- plain advance: the new head is not the food, old segments were free
                rename_i hnofood
                intro _ hate
                have h0 := hinv hate
                have hnb := (cellOccupied_eq_false.mp h0) snake hmem
                apply cellOccupied_replace_false h0
                intro hmem'
                rcases List.mem_cons.mp hmem' with he | hd
                · exact hnofood he.symm
                · exact hnb (List.Sublist.subset (List.dropLast_sublist snake.body) hd)

theorem update_food_free (w h : Int) (rnd : Nat → Point) (st : TickState)
    (order : List String)
    (hinv : st.ateFood = true → cellOccupied st.players st.food = false)
    (hfb : (update w h rnd st order).fellBack = false) :
    (update w h rnd st order).ateFood = true →
    cellOccupied (update w h rnd st order).players
      (update w h rnd st order).food = false := by
  induction order generalizing st with
  | nil => exact hinv
  | cons sid rest ih =>
      have hfb' : (update w h rnd (stepSnake w h rnd st sid) rest).fellBack = false := hfb
      have hfb1 : (stepSnake w h rnd st sid).fellBack = false := by
        cases hbb : (stepSnake w h rnd st sid).fellBack with
        | false => rfl
        | true =>
            rw [update_fellBack_mono w h rnd _ rest hbb] at hfb'
            cases hfb'
      exact ih _ (stepSnake_food_free w h rnd st sid hinv hfb1) hfb'

end SnakeGame

/-- Claim C4 as amended: whenever a snake's new head lands on the food cell
during a tick, its body length and its score grow by exactly one; the
replacement food is drawn from cells unoccupied at draw time with at most 200
retries, and provided no redraw of the tick fell back (every `randomEmptyCell`
call succeeded), the food cell broadcast at the end of the tick is not inside
any snake's body at that moment.  (When all 200 draws are occupied the food
falls back to the previous food cell, which lies inside the eating snake's
body — see the counterexample.) -/
theorem snake_eat_growth_fresh_food :
    (∀ (w h : Int) (rnd : Nat → SnakeGame.Point) (st : SnakeGame.TickState)
        (sid : String) (snake : SnakeGame.Snake) (c : SnakeGame.Point),
      SnakeGame.findSnake st.players sid = some snake → snake.alive = true →
      snake.body ≠ [] → SnakeGame.moveHead snake.body.headI snake.dir = c →
      ¬ (c.x < 0 ∨ w ≤ c.x ∨ c.y < 0 ∨ h ≤ c.y) → c ∉ snake.body →
      ¬ (∃ other ∈ st.players, other.id ≠ snake.id ∧ c ∈ other.body) →
      c = st.food →
      (SnakeGame.findSnake (SnakeGame.stepSnake w h rnd st sid).players sid).map
          (fun s => (s.body.length, s.score)) =
        some (snake.body.length + 1, snake.score + 1)) ∧
    (∀ (w h : Int) (rnd : Nat → SnakeGame.Point) (st : SnakeGame.TickState)
        (order : List String),
      st.ateFood = false →
      (SnakeGame.update w h rnd st order).ateFood = true →
      (SnakeGame.update w h rnd st order).fellBack = false →
      SnakeGame.cellOccupied (SnakeGame.update w h rnd st order).players
        (SnakeGame.update w h rnd st order).food = false) := by
  constructor
  · intro w h rnd st sid snake c hfind halive hbody hc hwall hself hother hfood
    rw [SnakeGame.stepSnake_eat w h rnd st sid snake c hfind halive hbody hc
        hwall hself hother hfood]
    have hself' := @SnakeGame.findSnake_replace_self st.players sid snake
      { snake with
        body := (c :: snake.body.dropLast) ++
          [(c :: snake.body.dropLast).getLastD ⟨0, 0⟩],
        score := snake.score + 1 } hfind rfl
    simp only []
    rw [hself']
    have hlen : snake.body.length ≠ 0 := by
      intro hh
      exact hbody (List.length_eq_zero.mp hh)
    simp [List.length_dropLast]
    omega
  · intro w h rnd st order hate0 hate hfb
    have hinv : st.ateFood = true →
        SnakeGame.cellOccupied st.players st.food = false := by
      intro hh
      rw [hate0] at hh
      cases hh
    exact SnakeGame.update_food_free w h rnd st order hinv hfb hate

/-- Witness for the amended claim C4: snake A at (5,5) heading right eats the
food at (6,5); the redraw stream yields the free cell (0,0), so the tick ends
with A grown to length 2, score 1, and a food cell occupied by no snake. -/
theorem snake_eat_growth_fresh_food_witness :
    (SnakeGame.findSnake
        (SnakeGame.stepSnake 20 20 (fun _ => ⟨0, 0⟩)
          ⟨[⟨"A", [⟨5, 5⟩], "right", 0, true⟩], ⟨6, 5⟩, 0, [], false, false⟩
          "A").players "A").map (fun s => (s.body.length, s.score)) =
      some (2, 1) ∧
    (SnakeGame.update 20 20 (fun _ => ⟨0, 0⟩)
        ⟨[⟨"A", [⟨5, 5⟩], "right", 0, true⟩], ⟨6, 5⟩, 0, [], false, false⟩
        ["A"]).ateFood = true ∧
    (SnakeGame.update 20 20 (fun _ => ⟨0, 0⟩)
        ⟨[⟨"A", [⟨5, 5⟩], "right", 0, true⟩], ⟨6, 5⟩, 0, [], false, false⟩
        ["A"]).fellBack = false ∧
    SnakeGame.cellOccupied
        (SnakeGame.update 20 20 (fun _ => ⟨0, 0⟩)
          ⟨[⟨"A", [⟨5, 5⟩], "right", 0, true⟩], ⟨6, 5⟩, 0, [], false, false⟩
          ["A"]).players
        (SnakeGame.update 20 20 (fun _ => ⟨0, 0⟩)
          ⟨[⟨"A", [⟨5, 5⟩], "right", 0, true⟩], ⟨6, 5⟩, 0, [], false, false⟩
          ["A"]).food = false := by
  have h1 := snake_eat_growth_fresh_food.1 20 20 (fun _ => ⟨0, 0⟩)
    ⟨[⟨"A", [⟨5, 5⟩], "right", 0, true⟩], ⟨6, 5⟩, 0, [], false, false⟩
    "A" ⟨"A", [⟨5, 5⟩], "right", 0, true⟩ ⟨6, 5⟩
    (by decide) rfl (by decide) (by decide) (by decide) (by decide)
    (by decide) (by decide)
  have h2 := snake_eat_growth_fresh_food.2 20 20 (fun _ => ⟨0, 0⟩)
    ⟨[⟨"A", [⟨5, 5⟩], "right", 0, true⟩], ⟨6, 5⟩, 0, [], false, false⟩
    ["A"] rfl (by decide) (by decide)
  exact ⟨by simpa using h1, by decide, by decide, h2⟩
